import Mathlib

/-!
Shallow embedding of `streamlit_app.py` (Bitwave multi-chain balance
validator) and verification of its specification claims.

Modelling conventions, used throughout:
* Machine integers are `Nat`/`Int`; Python binary-float arithmetic on
  balances is modelled by exact rationals (the spec's §8 explicitly leaves
  the float representation open).
* Pandas cells reaching the engine are either a missing value (`NaN`) or a
  string; numeric cells round-trip through `str` and are represented here by
  their decimal rendering.  `str(float('nan'))` is `"nan"`.
* Fallible RPC interactions return `Except`/`Option`.
* String case folding and digit classification are modelled over ASCII data,
  the value domain of addresses, chain labels and numeric cells.
-/

namespace BalanceCheck

/-- A pandas cell as the reconciliation loop sees it: a missing value
(`NaN`, for which `pd.isna` is true) or a string. -/
inductive Cell
  | na
  | str (s : String)
deriving DecidableEq, Repr

/-- Python `str(...)` applied to a cell: `str(float('nan')) = "nan"`. -/
def Cell.pyStr : Cell → String
  | .na => "nan"
  | .str s => s

/-- `pd.isna` on a cell. -/
def Cell.isna : Cell → Bool
  | .na => true
  | .str _ => false

/-- Python truthiness of a cell: `NaN` is truthy, `""` is falsy. -/
def Cell.truthy : Cell → Bool
  | .na => true
  | .str s => s ≠ ""

/-- Python `str.strip()` over ASCII whitespace, structurally recursive so
that closed terms evaluate inside the kernel. -/
def pyStrip (s : String) : String :=
  String.mk (((s.toList.dropWhile Char.isWhitespace).reverse.dropWhile
    Char.isWhitespace).reverse)

/-- Python `str.lower()` over ASCII. -/
def pyLower (s : String) : String := String.mk (s.toList.map Char.toLower)

/-- Python `str.replace(",", "")`. -/
def removeCommas (s : String) : String :=
  String.mk (s.toList.filter (fun c => c ≠ ','))

/-- Python `str.startswith(pre)`. -/
def pyStartsWith (s pre : String) : Bool := pre.toList.isPrefixOf s.toList

/-- Python code-point slicing `s[:n]`. -/
def pyTake (s : String) (n : Nat) : String := String.mk (s.toList.take n)

/-- A Python float value: `NaN`, signed infinity, or a finite value
(modelled exactly as a rational). -/
inductive PyFloat
  | nan
  | inf (neg : Bool)
  | val (q : ℚ)
deriving DecidableEq, Repr

/-- Python float subtraction (used only for `delta = bal - rep`). -/
def PyFloat.sub : PyFloat → PyFloat → PyFloat
  | .nan, _ => .nan
  | _, .nan => .nan
  | .inf s, .val _ => .inf s
  | .val _, .inf s => .inf (!s)
  | .inf a, .inf b => if a = b then .nan else .inf a
  | .val a, .val b => .val (a - b)

/-- CPython underscore placement rule for numeric strings: every `'_'` must
be immediately preceded and followed by a digit (in the relevant digit
alphabet).  The boolean argument records whether the previous character
counts as a digit; for `int(s, 16)` bodies it starts `true` because an
underscore may directly follow the `0x` base prefix. -/
def underscoreOk (isD : Char → Bool) : Bool → List Char → Bool
  | _, [] => true
  | prevD, c :: rest =>
    if c = '_' then
      prevD && (match rest with
                | d :: _ => isD d
                | [] => false) && underscoreOk isD false rest
    else
      underscoreOk isD (isD c) rest

/-- Lower-case hexadecimal digit (the scrutinised strings are lower-cased
before this is applied). -/
def isHexLower (c : Char) : Bool := c.isDigit || ('a' ≤ c && c ≤ 'f')

/-- Success of CPython `int(s, 16)` for a stripped, lower-cased `s` that
starts with `"0x"`: the body after the prefix must be non-empty and consist
of hex digits with legally placed underscores. -/
def pyIntHex16Ok (s : String) : Bool :=
  let body := s.toList.drop 2
  !body.isEmpty &&
    body.all (fun c => isHexLower c || c = '_') &&
    underscoreOk isHexLower true body

/-- `_is_native(token_address)` from the source: `None`, blank, the null-like
literals, or anything `int(s, 16)` rejects as a 42-character `0x` hex string
counts as "native, not a token". -/
def _is_native : Option String → Bool
  | none => true
  | some t =>
    let s := pyLower (pyStrip t)
    if s = "" || s = "n/a" || s = "na" || s = "none" || s = "nan" then true
    else if !pyStartsWith s "0x" then true
    else if s.length ≠ 42 then true
    else if !pyIntHex16Ok s then true
    else false

/-- Digits of a character list interpreted in base 10 (all characters are
assumed to be digits by the caller's grammar checks). -/
def digitsToNat (cs : List Char) : Nat :=
  cs.foldl (fun a c => a * 10 + (c.toNat - '0'.toNat)) 0

/-- Parse the mantissa part of a Python float string (underscores already
removed, lower-cased): `digits`, `digits.`, `digits.digits` or `.digits`. -/
def parseMantissa (cs : List Char) : Option ℚ :=
  match cs.splitOn '.' with
  | [ip] =>
    if !ip.isEmpty && ip.all Char.isDigit then some (digitsToNat ip) else none
  | [ip, fp] =>
    if (!ip.isEmpty || !fp.isEmpty) && ip.all Char.isDigit && fp.all Char.isDigit then
      some ((digitsToNat ip : ℚ) + (digitsToNat fp : ℚ) / ((10 : ℚ) ^ fp.length))
    else none
  | _ => none

/-- Parse the optional exponent suffix of a Python float string. -/
def parseExponent (cs : List Char) : Option Int :=
  let (sgn, ds) : Int × List Char :=
    match cs with
    | '+' :: rest => (1, rest)
    | '-' :: rest => (-1, rest)
    | rest => (1, rest)
  if !ds.isEmpty && ds.all Char.isDigit then some (sgn * digitsToNat ds) else none

/-- Parse an unsigned Python float body (trimmed, lower-cased, underscores
removed): `inf`, `infinity`, `nan`, or mantissa with optional `e` exponent. -/
def parseUnsignedFloat (cs : List Char) : Option PyFloat :=
  if cs = "inf".toList || cs = "infinity".toList then some (.inf false)
  else if cs = "nan".toList then some .nan
  else
    match cs.splitOn 'e' with
    | [m] => (parseMantissa m).map .val
    | [m, e] =>
      match parseMantissa m, parseExponent e with
      | some q, some ex => some (.val (q * (10 : ℚ) ^ ex))
      | _, _ => none
    | _ => none

/-- Negate a Python float. -/
def PyFloat.neg : PyFloat → PyFloat
  | .nan => .nan
  | .inf s => .inf (!s)
  | .val q => .val (-q)

/-- Success/value of CPython `float(s)`: surrounding whitespace ignored,
case-insensitive, optional sign, underscores allowed between digits. -/
def pyFloatParse (s : String) : Option PyFloat :=
  let t := pyLower (pyStrip s)
  let cs := t.toList
  if !underscoreOk Char.isDigit false cs then none
  else
    let clean := cs.filter (fun c => c ≠ '_')
    match clean with
    | '+' :: rest => parseUnsignedFloat rest
    | '-' :: rest => (parseUnsignedFloat rest).map PyFloat.neg
    | rest => parseUnsignedFloat rest

/-- `human_to_decimal(val)` from the source: `None` on missing values,
otherwise `float(str(val).replace(',', '').strip())` with any exception
converted to `None`.  A numeric cell's `str` rendering re-parses to its own
value. -/
def human_to_decimal : Cell → Option PyFloat
  | .na => none
  | .str s => pyFloatParse (pyStrip (removeCommas s))

/-- Static part of one `CHAIN_CONFIG` entry (the `rpc` field is read from
the process environment and is supplied separately by `RunCfg.rpcOf`). -/
structure ChainInfo where
  name : String
  native_token : String
  aliases : List String
deriving DecidableEq, Repr

/-- The `CHAIN_CONFIG` table from the source, in declaration order. -/
def CHAIN_CONFIG : List (String × ChainInfo) :=
  [("AVAX", ⟨"Avalanche C-Chain", "AVAX",
      ["avax", "avalanche", "avax-c", "avalanche c-chain", "avalanche c chain"]⟩),
   ("ETH", ⟨"Ethereum Mainnet", "ETH",
      ["eth", "ethereum", "ethereum mainnet", "mainnet"]⟩),
   ("ARB", ⟨"Arbitrum One", "ETH",
      ["arb", "arbitrum", "arbitrum one", "arb1"]⟩),
   ("BASE", ⟨"Base", "ETH",
      ["base", "base mainnet"]⟩)]

/-- `identify_chain(chain_value)` from the source: falsy or missing values
yield `None`; otherwise the trimmed, lower-cased label is compared for
membership in each chain's alias list, in `CHAIN_CONFIG` order. -/
def identify_chain (chain_value : Cell) : Option String :=
  match chain_value with
  | .na => none
  | .str s =>
    if s = "" then none
    else
      let cs := pyLower (pyStrip s)
      (CHAIN_CONFIG.find? (fun kc => kc.2.aliases.contains cs)).map (·.1)

/-- One observable JSON-RPC interaction, recorded so theorems can talk about
which network operations a record caused.  A `getBalance`/`balanceOf` entry
records a balance-fetch attempt (including its address checksumming). -/
inductive RpcCall
  | blockNumber (rpc : String)
  | getBlock (rpc : String) (n : Nat)
  | getBalance (rpc : String) (addr : String) (blk : Nat)
  | balanceOf (rpc : String) (token addr : String) (blk : Nat)
  | decimalsCall (rpc : String) (token : String)
deriving DecidableEq, Repr

/-- The chain behind one RPC endpoint.  `blockNumber` is indexed by a query
counter so that a head that advances between queries is expressible; block
timestamps and balances are immutable chain data.  `Except`/`Option` results
model RPC failures: `tokenRaw` returns `none` because `fetch_erc20` converts
its own exceptions to `None`, and `decimalsOf` returns `none` for a failing
`decimals()` call that `fetch_token_decimals` converts to the default 18. -/
structure Chain where
  blockNumber : Nat → Except String Nat
  blockTs : Nat → Except String Nat
  nativeWei : String → Nat → Except String Nat
  tokenRaw : String → String → Nat → Option Nat
  decimalsOf : String → Option Nat

/-- How the binary search in `find_block_by_timestamp` produced its block:
by the in-loop `return mid` (the 15-second early exit, or the dead
exact-equality branch) or as the tracked closest candidate after the loop. -/
inductive SearchOutcome
  | exitAt (b : Nat)
  | best (b : Nat)
deriving DecidableEq, Repr

/-- The block number carried by a search outcome. -/
def SearchOutcome.block : SearchOutcome → Nat
  | .exitAt b => b
  | .best b => b

/-- The `while low <= high and iterations < max_iterations` loop of
`find_block_by_timestamp`, one constructor argument per piece of loop state.
`low`/`high` are `Int` because `high = mid - 1` goes to `-1` in Python;
`mid = (low + high) // 2` is only computed under `low ≤ high`, where both
are non-negative, so `Int.toNat` and truncated division agree with Python. -/
def searchLoop (c : Chain) (rpc : String) (target : Nat) :
    Nat → Int → Int → Nat → Nat → Except String SearchOutcome × List RpcCall
  | 0, _, _, cb, _ => (.ok (.best cb), [])
  | fuel + 1, low, high, cb, cd =>
    if low > high then (.ok (.best cb), [])
    else
      let midI := (low + high) / 2
      let mid := midI.toNat
      match c.blockTs mid with
      | .error e => (.error e, [.getBlock rpc mid])
      | .ok bts =>
        let d := Nat.dist bts target
        let cb' := if d < cd then mid else cb
        let cd' := if d < cd then d else cd
        if d < 15 then (.ok (.exitAt mid), [.getBlock rpc mid])
        else if bts < target then
          let rest := searchLoop c rpc target fuel (midI + 1) high cb' cd'
          (rest.1, .getBlock rpc mid :: rest.2)
        else if bts > target then
          let rest := searchLoop c rpc target fuel low (midI - 1) cb' cd'
          (rest.1, .getBlock rpc mid :: rest.2)
        else (.ok (.exitAt mid), [.getBlock rpc mid])

/-- `find_block_by_timestamp(rpc, target_ts)` from the source: future
timestamps clamp to the head block, pre-genesis timestamps clamp to block 0,
otherwise binary search with closest tracking, a 15-second early exit, a
100-iteration ceiling, and a final verification fetch of the closest block.
Returns the result, the advanced head-query counter, and the RPC calls
made. -/
def find_block_by_timestamp (c : Chain) (rpc : String) (clk : Nat) (target : Nat) :
    Except String Nat × Nat × List RpcCall :=
  match c.blockNumber clk with
  | .error e => (.error e, clk + 1, [.blockNumber rpc])
  | .ok latest =>
    match c.blockTs latest with
    | .error e => (.error e, clk + 1, [.blockNumber rpc, .getBlock rpc latest])
    | .ok latest_ts =>
      if target ≥ latest_ts then (.ok latest, clk + 1, [.blockNumber rpc, .getBlock rpc latest])
      else
        match c.blockTs 0 with
        | .error e =>
          (.error e, clk + 1, [.blockNumber rpc, .getBlock rpc latest, .getBlock rpc 0])
        | .ok genesis_ts =>
          let pre : List RpcCall := [.blockNumber rpc, .getBlock rpc latest, .getBlock rpc 0]
          if target < genesis_ts then (.ok 0, clk + 1, pre)
          else
            let rcs :=
              searchLoop c rpc target 100 0 (latest : Int) latest (Nat.dist latest_ts target)
            let cs := rcs.2
            match rcs.1 with
            | .error e => (.error e, clk + 1, pre ++ cs)
            | .ok (.exitAt b) => (.ok b, clk + 1, pre ++ cs)
            | .ok (.best b) =>
              match c.blockTs b with
              | .error e => (.error e, clk + 1, pre ++ cs ++ [.getBlock rpc b])
              | .ok _ => (.ok b, clk + 1, pre ++ cs ++ [.getBlock rpc b])

/-- Mutable per-run state threaded through the loop: the head-query counter
and the `st.cache_data` memo of `find_block_by_timestamp`, keyed on the
`(rpc, target_ts)` argument pair.  The memo outlives a single run (its TTL
is one hour), which is why `run` below is parametrised by an initial
state. -/
structure RunState where
  clk : Nat
  fcache : List ((String × Nat) × Nat)
deriving DecidableEq, Repr

/-- The sidebar's as-of selection: current balances, or historical balances
at a UTC timestamp with an optional explicit block number. -/
inductive Mode
  | current
  | historical (utc_ts : Nat) (explicit_blk : Option Nat)
deriving DecidableEq, Repr

/-- Run configuration: the environment-supplied RPC endpoint per chain key,
whether a token-contract and a token-symbol column are mapped, and the
validation mode. -/
structure RunCfg where
  rpcOf : String → Option String
  tokenMapped : Bool
  symbolMapped : Bool
  mode : Mode

/-- Python truthiness of the `rpc` entry: unset or empty means not
configured. -/
def rpcTruthy : Option String → Bool
  | none => false
  | some r => r ≠ ""

/-- `configured_chains`: the chains of `CHAIN_CONFIG` whose `rpc` entry is
truthy. -/
def configured_chains (cfg : RunCfg) : List (String × ChainInfo) :=
  CHAIN_CONFIG.filter (fun kc => rpcTruthy (cfg.rpcOf kc.1))

/-- The `@st.cache_data` wrapper around `find_block_by_timestamp`: a hit
performs no RPC call, a successful miss is stored, a failure is not
cached. -/
def find_block_cached (env : String → Chain) (st : RunState) (rpc : String) (target : Nat) :
    Except String Nat × RunState × List RpcCall :=
  match st.fcache.lookup (rpc, target) with
  | some b => (.ok b, st, [])
  | none =>
    let out := find_block_by_timestamp (env rpc) rpc st.clk target
    match out.1 with
    | .ok b => (.ok b, ⟨out.2.1, ((rpc, target), b) :: st.fcache⟩, out.2.2)
    | .error e => (.error e, ⟨out.2.1, st.fcache⟩, out.2.2)

/-- One input row as the loop reads it: mapped cells plus the `_chain_id`
column precomputed before the loop (manual override, `identify_chain` of the
chain column, or the first configured chain). -/
structure Row where
  address : Cell
  token : Cell
  symbol : Cell
  reported : Cell
  chain_id : Option String

/-- One output record, the dict appended to `res`.  Successful rows carry no
`"error"` key, modelled as `error = none`. -/
structure BalanceResult where
  row : Nat
  chain : String
  wallet : String
  token : String
  reported : Option PyFloat
  onchain : Option PyFloat
  delta : Option PyFloat
  error : Option String
deriving DecidableEq, Repr

/-- The chain lookup performed at the top of each loop iteration: `None`,
falsy, or not-configured chain ids miss; otherwise the configured entry. -/
def chainHit (cfg : RunCfg) (chain_id : Option String) : Option (String × ChainInfo) :=
  match chain_id with
  | none => none
  | some k => if k = "" then none else (configured_chains cfg).find? (fun kc => kc.1 = k)

/-- Python `x or d` for an optional string: `None` and `""` fall back to the
default. -/
def pyOrStr (o : Option String) (d : String) : String :=
  match o with
  | none => d
  | some s => if s = "" then d else s

/-- The per-record block-height step (source lines 374-384): a fresh head
query in current mode; in historical mode the explicit block if it is truthy
(so an explicit block of 0 falls through), else the cached timestamp
resolution. -/
def blockStep (cfg : RunCfg) (env : String → Chain) (st : RunState) (rpc_url : String) :
    Except String Nat × RunState × List RpcCall :=
  match cfg.mode with
  | .current =>
    (match (env rpc_url).blockNumber st.clk with
     | .ok b => .ok b
     | .error e => .error e, ⟨st.clk + 1, st.fcache⟩, [.blockNumber rpc_url])
  | .historical utc_ts explicit_blk =>
    match explicit_blk with
    | some b => if b ≠ 0 then (.ok b, st, []) else find_block_cached env st rpc_url utc_ts
    | none => find_block_cached env st rpc_url utc_ts

/-- One iteration of the main reconciliation loop (source lines 358-412) for
the row at position `i`: produces exactly one `BalanceResult`, the updated
run state, and the RPC calls attributable to this record. -/
def processRow (cfg : RunCfg) (env : String → Chain) (i : Nat) (st : RunState) (r : Row) :
    BalanceResult × RunState × List RpcCall :=
  let addr := pyStrip r.address.pyStr
  let token_raw : Option String := if cfg.tokenMapped then some (pyStrip r.token.pyStr) else none
  let rep := human_to_decimal r.reported
  let chain_id := r.chain_id
  match chainHit cfg chain_id with
  | none =>
    ({ row := i + 1, chain := pyOrStr chain_id "Unknown", wallet := addr,
       token := pyOrStr token_raw "N/A", reported := rep, onchain := none, delta := none,
       error := some "Chain not configured or not recognized" }, st, [])
  | some kc =>
    let rpc_url := (cfg.rpcOf kc.1).getD ""
    let native_token := kc.2.native_token
    let (blkR, st1, cs1) := blockStep cfg env st rpc_url
    match blkR with
    | .error e =>
      ({ row := i + 1, chain := kc.2.name, wallet := addr,
         token := pyOrStr token_raw native_token, reported := rep, onchain := none,
         delta := none, error := some ("RPC Error: " ++ pyTake e 100) }, st1, cs1)
    | .ok blk =>
      if addr = "" || addr.length < 10 then
        ({ row := i + 1, chain := kc.2.name, wallet := addr,
           token := pyOrStr token_raw native_token, reported := rep, onchain := none,
           delta := none, error := some "Invalid or empty wallet address" }, st1, cs1)
      else if _is_native token_raw then
        match (env rpc_url).nativeWei addr blk with
        | .error e =>
          ({ row := i + 1, chain := kc.2.name, wallet := addr, token := native_token,
             reported := rep, onchain := none, delta := none,
             error := some ("Invalid address format: " ++ e) }, st1,
           cs1 ++ [.getBalance rpc_url addr blk])
        | .ok wei =>
          let bal : ℚ := (wei : ℚ) / (10 : ℚ) ^ (18 : ℕ)
          ({ row := i + 1, chain := kc.2.name, wallet := addr, token := native_token,
             reported := rep, onchain := some (.val bal),
             delta := rep.map (fun rp => PyFloat.sub (.val bal) rp), error := none }, st1,
           cs1 ++ [.getBalance rpc_url addr blk])
      else
        let t := (token_raw.getD "")
        match (env rpc_url).tokenRaw t addr blk with
        | none =>
          ({ row := i + 1, chain := kc.2.name, wallet := addr, token := t,
             reported := rep, onchain := none, delta := none,
             error := some "Failed to fetch balance" }, st1,
           cs1 ++ [.balanceOf rpc_url t addr blk])
        | some raw =>
          let decimals := ((env rpc_url).decimalsOf t).getD 18
          let bal : ℚ := (raw : ℚ) / (10 : ℚ) ^ decimals
          let sym := if cfg.symbolMapped then r.symbol.pyStr else "TOKEN"
          ({ row := i + 1, chain := kc.2.name, wallet := addr, token := sym,
             reported := rep, onchain := some (.val bal),
             delta := rep.map (fun rp => PyFloat.sub (.val bal) rp), error := none }, st1,
           cs1 ++ [.balanceOf rpc_url t addr blk, .decimalsCall rpc_url t])

/-- The main loop over all rows from position `i`, accumulating results in
input order and concatenating each record's RPC calls.  (`st.cache_data` on
`fetch_token_decimals` is not modelled; no claim concerns decimals-call
multiplicity.) -/
def runLoop (cfg : RunCfg) (env : String → Chain) :
    Nat → RunState → List Row → List BalanceResult × RunState × List RpcCall
  | _, st, [] => ([], st, [])
  | i, st, r :: rs =>
    let p := processRow cfg env i st r
    let rest := runLoop cfg env (i + 1) p.2.1 rs
    (p.1 :: rest.1, rest.2.1, p.2.2 ++ rest.2.2)

/-- A reconciliation run started from an arbitrary carried-over state (the
resolution memo has a one-hour TTL and can survive across runs). -/
def runFrom (cfg : RunCfg) (env : String → Chain) (st : RunState) (rows : List Row) :
    List BalanceResult × RunState × List RpcCall :=
  runLoop cfg env 0 st rows

/-- A reconciliation run from a fresh state. -/
def run (cfg : RunCfg) (env : String → Chain) (rows : List Row) :
    List BalanceResult × RunState × List RpcCall :=
  runFrom cfg env ⟨0, []⟩ rows

/-- Whether an RPC call is a balance fetch (native or ERC-20). -/
def RpcCall.isBalanceFetch : RpcCall → Bool
  | .getBalance _ _ _ => true
  | .balanceOf _ _ _ _ => true
  | _ => false

/-- Whether an RPC call is a head-block-number query against `rpc`. -/
def RpcCall.isHeadOn (rpc : String) : RpcCall → Bool
  | .blockNumber r => r = rpc
  | _ => false

/-- The block height a balance-fetch call reads at (`none` for other
calls). -/
def RpcCall.fetchHeight (rpc : String) : RpcCall → Option Nat
  | .getBalance r _ blk => if r = rpc then some blk else none
  | .balanceOf r _ _ blk => if r = rpc then some blk else none
  | _ => none

/- Test fixtures: concrete chains, configurations and rows used by the
counterexample and witness theorems below. -/

namespace Fix

/-- RPC endpoint for the AVAX entry. -/
def rpcA : String := "http://avax"

/-- Environment with only AVAX configured. -/
def rpcOfAvax : String → Option String := fun k => if k = "AVAX" then some rpcA else none

/-- Environment with all four chains configured. -/
def rpcOfAll : String → Option String := fun k =>
  if k = "AVAX" then some "http://avax"
  else if k = "ETH" then some "http://eth"
  else if k = "ARB" then some "http://arb"
  else if k = "BASE" then some "http://base"
  else none

/-- A stable chain: head at block 5, timestamps `100 * b`, native balance at
block `blk` equal to `blk` whole coins. -/
def steadyChain : Chain :=
  { blockNumber := fun _ => .ok 5
    blockTs := fun b => .ok (100 * b)
    nativeWei := fun _ blk => .ok (blk * 10 ^ 18)
    tokenRaw := fun _ _ _ => some 105000000
    decimalsOf := fun _ => some 6 }

/-- A chain whose head advances by one block per head query (head 100, then
101, ...). -/
def advChain : Chain :=
  { blockNumber := fun k => .ok (100 + k)
    blockTs := fun b => .ok b
    nativeWei := fun _ blk => .ok (blk * 10 ^ 18)
    tokenRaw := fun _ _ _ => some 105000000
    decimalsOf := fun _ => some 6 }

/-- All endpoints behave like `steadyChain`. -/
def steadyEnv : String → Chain := fun _ => steadyChain

/-- All endpoints behave like `advChain`. -/
def advEnv : String → Chain := fun _ => advChain

/-- Current-balances configuration, AVAX configured. -/
def cfgCur : RunCfg :=
  { rpcOf := rpcOfAvax, tokenMapped := true, symbolMapped := false, mode := .current }

/-- Current-balances configuration with all four chains configured. -/
def cfgAll : RunCfg :=
  { rpcOf := rpcOfAll, tokenMapped := true, symbolMapped := false, mode := .current }

/-- Historical configuration with target timestamp 230 and the given
explicit block. -/
def cfgHist (e : Option Nat) : RunCfg :=
  { rpcOf := rpcOfAvax, tokenMapped := true, symbolMapped := false,
    mode := .historical 230 e }

/-- A well-formed native row on AVAX. -/
def rowGood : Row := ⟨.str "0xabcdef1234", .str "N/A", .na, .na, some "AVAX"⟩

/-- A row whose wallet address is too short. -/
def rowShort : Row := ⟨.str "0x1", .str "N/A", .na, .na, some "AVAX"⟩

end Fix

/-- Every branch of `processRow` emits the 1-based position as the `row`
field. -/
theorem processRow_row (cfg : RunCfg) (env : String → Chain) (i : Nat) (st : RunState)
    (r : Row) : ((processRow cfg env i st r).1).row = i + 1 := by
  simp only [processRow]
  repeat' split
  all_goals rfl

/-- Per-record dichotomy: each produced result either has an on-chain amount
and no error, or a populated error with null on-chain amount and delta. -/
theorem processRow_dichotomy (cfg : RunCfg) (env : String → Chain) (i : Nat) (st : RunState)
    (r : Row) :
    (((processRow cfg env i st r).1).onchain.isSome ∧
        ((processRow cfg env i st r).1).error = none) ∨
      (((processRow cfg env i st r).1).onchain = none ∧
        ((processRow cfg env i st r).1).delta = none ∧
        ((processRow cfg env i st r).1).error.isSome) := by
  simp only [processRow]
  repeat' split
  all_goals simp

/-- The results of the loop started at position `i` carry row numbers
`i+1, i+2, ...`, one per input row. -/
theorem runLoop_map_row (cfg : RunCfg) (env : String → Chain) :
    ∀ (rows : List Row) (i : Nat) (st : RunState),
      ((runLoop cfg env i st rows).1).map BalanceResult.row = List.range' (i + 1) rows.length
  | [], _, _ => rfl
  | r :: rs, i, st => by
    have ih := runLoop_map_row cfg env rs (i + 1) (processRow cfg env i st r).2.1
    simp [runLoop, List.range', processRow_row, ih]

/-- C1: for every input sequence of N records, the reconciliation loop
produces exactly N results, one per input row, carrying the row numbers
`1..N` in input order; no row is dropped and no per-record failure
terminates the batch early. -/
theorem C1_cardinality_and_order (cfg : RunCfg) (env : String → Chain) (st : RunState)
    (rows : List Row) :
    ((runFrom cfg env st rows).1).length = rows.length ∧
      ((runFrom cfg env st rows).1).map BalanceResult.row = List.range' 1 rows.length := by
  have h := runLoop_map_row cfg env rows 0 st
  refine ⟨?_, h⟩
  have := congrArg List.length h
  simpa using this

/-- Results of the loop are exactly per-row `processRow` outputs. -/
theorem runLoop_mem (cfg : RunCfg) (env : String → Chain) :
    ∀ (rows : List Row) (i : Nat) (st : RunState) (res : BalanceResult),
      res ∈ (runLoop cfg env i st rows).1 →
        ∃ j st' r, res = (processRow cfg env j st' r).1
  | [], _, _, _ => by simp [runLoop]
  | r :: rs, i, st, res => by
    intro hmem
    simp only [runLoop, List.mem_cons] at hmem
    rcases hmem with h | h
    · exact ⟨i, st, r, h⟩
    · exact runLoop_mem cfg env rs (i + 1) _ res h

/-- C2: every produced result has exactly one of an on-chain amount or an
error — never both, never neither; error results carry null on-chain amount
and delta. -/
theorem C2_mutual_exclusion (cfg : RunCfg) (env : String → Chain) (st : RunState)
    (rows : List Row) (res : BalanceResult) (hmem : res ∈ (runFrom cfg env st rows).1) :
    (res.onchain.isSome ∧ res.error = none) ∨
      (res.onchain = none ∧ res.delta = none ∧ res.error.isSome) := by
  obtain ⟨j, st', r, rfl⟩ := runLoop_mem cfg env rows 0 st res hmem
  exact processRow_dichotomy cfg env j st' r

/-- Witness for C2 at a concrete run. -/
theorem C2_mutual_exclusion_witness :
    ∃ res, res ∈ (runFrom Fix.cfgCur Fix.steadyEnv ⟨0, []⟩ [Fix.rowGood]).1 ∧
      ((res.onchain.isSome ∧ res.error = none) ∨
        (res.onchain = none ∧ res.delta = none ∧ res.error.isSome)) := by
  refine ⟨(processRow Fix.cfgCur Fix.steadyEnv 0 ⟨0, []⟩ Fix.rowGood).1, ?h, ?_⟩
  case h => simp [runFrom, runLoop]
  exact C2_mutual_exclusion Fix.cfgCur Fix.steadyEnv ⟨0, []⟩ [Fix.rowGood] _
    (by simp [runFrom, runLoop])

/-- Whether an RPC call is a head or block query (as opposed to a balance
or metadata fetch). -/
def RpcCall.isBlockQuery : RpcCall → Bool
  | .blockNumber _ => true
  | .getBlock _ _ => true
  | _ => false

/-- A block query is never a balance fetch. -/
theorem isBlockQuery_not_balance (call : RpcCall) (h : call.isBlockQuery = true) :
    call.isBalanceFetch = false := by
  cases call <;> simp_all [RpcCall.isBlockQuery, RpcCall.isBalanceFetch]

/-- The binary-search loop only performs block queries. -/
theorem searchLoop_block_queries (c : Chain) (rpc : String) (target : Nat) :
    ∀ (fuel : Nat) (low high : Int) (cb cd : Nat),
      ((searchLoop c rpc target fuel low high cb cd).2).all RpcCall.isBlockQuery = true
  | 0, _, _, _, _ => by simp [searchLoop]
  | fuel + 1, low, high, cb, cd => by
    simp only [searchLoop]
    repeat' split
    all_goals
      simp [RpcCall.isBlockQuery, searchLoop_block_queries c rpc target fuel]

/-- Block resolution only performs block queries. -/
theorem find_block_block_queries (c : Chain) (rpc : String) (clk target : Nat) :
    ((find_block_by_timestamp c rpc clk target).2.2).all RpcCall.isBlockQuery = true := by
  rw [find_block_by_timestamp]
  repeat' split
  all_goals
    simp [RpcCall.isBlockQuery, searchLoop_block_queries]
  all_goals
    intro call hmem
    repeat' split at hmem
  all_goals
    simp at hmem
    rcases hmem with h | h | h | h <;>
      first
        | simp [h, RpcCall.isBlockQuery]
        | exact List.all_eq_true.mp (searchLoop_block_queries c rpc target _ _ _ _ _) call h
        | (rcases h with h | h
           · exact List.all_eq_true.mp (searchLoop_block_queries c rpc target _ _ _ _ _) call h
           · simp [h, RpcCall.isBlockQuery])

/-- The cached resolver only performs block queries. -/
theorem find_block_cached_block_queries (env : String → Chain) (st : RunState) (rpc : String)
    (target : Nat) :
    ((find_block_cached env st rpc target).2.2).all RpcCall.isBlockQuery = true := by
  rw [find_block_cached]
  split
  · simp
  · rw [List.all_eq_true]
    intro call hmem
    simp only [] at hmem
    split at hmem
    all_goals
      exact List.all_eq_true.mp (find_block_block_queries (env rpc) rpc st.clk target) call hmem

/-- The block-height step only performs block queries. -/
theorem blockStep_block_queries (cfg : RunCfg) (env : String → Chain) (st : RunState)
    (rpc_url : String) :
    ((blockStep cfg env st rpc_url).2.2).all RpcCall.isBlockQuery = true := by
  rw [blockStep]
  repeat' split
  all_goals simp [RpcCall.isBlockQuery, find_block_cached_block_queries]

/-- C3 counterexample: a record whose wallet address is `"0x1"` (too short)
on a configured chain in current mode is reported with the invalid-address
error, yet a head-block RPC query was performed for that record before the
address check — refuting "performs no RPC call for that record". -/
theorem C3_counterexample :
    ((run Fix.cfgCur Fix.steadyEnv [Fix.rowShort]).1.map BalanceResult.error
        = [some "Invalid or empty wallet address"])
    ∧ ((run Fix.cfgCur Fix.steadyEnv [Fix.rowShort]).2.2.any (RpcCall.isHeadOn Fix.rpcA))
        = true := by
  constructor <;> rfl

/-- C3 as amended: a record with an empty or shorter-than-10-character
wallet address on a resolvable, configured chain whose block step succeeds
is reported with the invalid-address error, and no balance fetch is ever
attempted for it; block resolution, however, runs before the address check
(its head/getBlock queries do occur). -/
theorem C3_amended (cfg : RunCfg) (env : String → Chain) (i : Nat) (st : RunState) (r : Row)
    (kc : String × ChainInfo) (b : Nat)
    (hhit : chainHit cfg r.chain_id = some kc)
    (hblk : (blockStep cfg env st ((cfg.rpcOf kc.1).getD "")).1 = .ok b)
    (haddr : pyStrip r.address.pyStr = "" ∨ (pyStrip r.address.pyStr).length < 10) :
    ((processRow cfg env i st r).1).error = some "Invalid or empty wallet address" ∧
      ∀ call ∈ (processRow cfg env i st r).2.2, call.isBalanceFetch = false := by
  have hcond :
      (decide (pyStrip r.address.pyStr = "") || decide ((pyStrip r.address.pyStr).length < 10))
        = true := by
    rcases haddr with h | h <;> simp [h]
  constructor
  · simp [processRow, hhit, hblk, hcond]
  · intro call hmem
    simp only [processRow, hhit, hblk, hcond] at hmem
    simp at hmem
    have hall := blockStep_block_queries cfg env st ((cfg.rpcOf kc.1).getD "")
    rw [List.all_eq_true] at hall
    exact isBlockQuery_not_balance call (hall call hmem)

/-- Witness for C3 as amended, at the concrete short-address fixture. -/
theorem C3_amended_witness :
    ((processRow Fix.cfgCur Fix.steadyEnv 0 ⟨0, []⟩ Fix.rowShort).1).error
        = some "Invalid or empty wallet address" ∧
      ∀ call ∈ (processRow Fix.cfgCur Fix.steadyEnv 0 ⟨0, []⟩ Fix.rowShort).2.2,
        call.isBalanceFetch = false :=
  C3_amended Fix.cfgCur Fix.steadyEnv 0 ⟨0, []⟩ Fix.rowShort
    ("AVAX", ⟨"Avalanche C-Chain", "AVAX",
      ["avax", "avalanche", "avax-c", "avalanche c-chain", "avalanche c chain"]⟩) 5
    (by rfl) (by rfl) (Or.inr (by decide))

/-- One raw input row as the pre-loop stage sees it: the mapped cells plus
the raw chain-column cell, before `_chain_id` assignment. -/
structure RawRow where
  address : Cell
  token : Cell
  symbol : Cell
  reported : Cell
  chain : Cell

/-- First-occurrence deduplication (pandas `.unique()` order), written with
an accumulator so closed terms evaluate inside the kernel. -/
def uniqueFirstAux (seen : List String) : List String → List String
  | [] => []
  | x :: xs =>
    if x ∈ seen then uniqueFirstAux seen xs
    else x :: uniqueFirstAux (x :: seen) xs

/-- pandas `Series.unique()`: first occurrences, in order. -/
def pdUnique (l : List String) : List String := uniqueFirstAux [] l

/-- `chains_in_data = df['_chain_id'].dropna().unique()` (source line 342):
the identified chains of the batch, `None`s dropped, first occurrences. -/
def chains_in_data (raws : List RawRow) : List String :=
  pdUnique ((raws.map (fun rr => identify_chain rr.chain)).filterMap id)

/-- `missing_chains` (source line 346): identified chains that are not in
`configured_chains`. -/
def missing_chains (cfg : RunCfg) (raws : List RawRow) : List String :=
  (chains_in_data raws).filter (fun c => !(configured_chains cfg).any (fun kc => kc.1 = c))

/-- The distinct pre-loop abort message of source line 348. -/
def missingMsg (cfg : RunCfg) (raws : List RawRow) : String :=
  "❌ Missing RPC configuration for: " ++ String.intercalate ", "
    ((missing_chains cfg raws).map (fun c =>
      match CHAIN_CONFIG.find? (fun kc => kc.1 = c) with
      | some kc => kc.2.name
      | none => c))

/-- The pre-loop chain-column stage (source lines 340-349): `_chain_id` is
assigned per row by `identify_chain`, and if any identified chain lacks an
RPC endpoint the whole run aborts (`st.error` + `st.stop()`, modelled as an
`error` result carrying the distinct message) before the loop starts. -/
def prepare_chain_column (cfg : RunCfg) (raws : List RawRow) : Except String (List Row) :=
  match missing_chains cfg raws with
  | [] => .ok (raws.map fun rr =>
      ⟨rr.address, rr.token, rr.symbol, rr.reported, identify_chain rr.chain⟩)
  | _ :: _ => .error (missingMsg cfg raws)

/-- The chain-column flow of the app end to end: the pre-loop stage, then
the main reconciliation loop on the prepared rows. -/
def full_run (cfg : RunCfg) (env : String → Chain) (raws : List RawRow) :
    Except String (List BalanceResult × RunState × List RpcCall) :=
  match prepare_chain_column cfg raws with
  | .error e => .error e
  | .ok rows => .ok (run cfg env rows)

/-- Fixture: a raw row whose chain cell reads `"base"` (matches the BASE
aliases) with BASE lacking an RPC endpoint under `cfgCur`. -/
def Fix.rawBase : RawRow := ⟨.str "0xabcdef1234", .str "N/A", .na, .na, .str "base"⟩

/-- Membership is preserved into the deduplicated list (unseen elements). -/
theorem mem_uniqueFirstAux_of (x : String) :
    ∀ (l seen : List String), x ∈ l → x ∉ seen → x ∈ uniqueFirstAux seen l
  | [], _ => fun hx _ => absurd hx (List.not_mem_nil x)
  | y :: ys, seen => fun hx hseen => by
    rw [uniqueFirstAux]
    rcases List.mem_cons.mp hx with rfl | hmem
    · rw [if_neg hseen]
      exact List.mem_cons_self x _
    · by_cases hy : y ∈ seen
      · rw [if_pos hy]
        exact mem_uniqueFirstAux_of x ys seen hmem hseen
      · rw [if_neg hy]
        by_cases hxy : x = y
        · subst hxy
          exact List.mem_cons_self x _
        · refine List.mem_cons_of_mem y (mem_uniqueFirstAux_of x ys (y :: seen) hmem ?_)
          intro hc
          rcases List.mem_cons.mp hc with h | h
          · exact hxy h
          · exact hseen h

/-- The deduplicated list only contains elements of the original. -/
theorem mem_of_uniqueFirstAux (x : String) :
    ∀ (l seen : List String), x ∈ uniqueFirstAux seen l → x ∈ l
  | [], _ => fun hx => by simp [uniqueFirstAux] at hx
  | y :: ys, seen => fun hx => by
    rw [uniqueFirstAux] at hx
    split at hx
    · exact List.mem_cons_of_mem y (mem_of_uniqueFirstAux x ys seen hx)
    · rcases List.mem_cons.mp hx with rfl | h
      · exact List.mem_cons_self x _
      · exact List.mem_cons_of_mem y (mem_of_uniqueFirstAux x ys (y :: seen) h)

/-- A string starts with any of its prefixes. -/
theorem pyStartsWith_append (p s : String) : pyStartsWith (p ++ s) p = true := by
  simp only [pyStartsWith, String.toList]
  rw [String.data_append]
  exact List.isPrefixOf_iff_prefix.mpr (List.prefix_append _ _)

/-- The pre-loop abort message is never the per-record chain error. -/
theorem missingMsg_ne_row_error (e : String)
    (h : pyStartsWith e "❌ Missing RPC configuration for: " = true) :
    e ≠ "Chain not configured or not recognized" := by
  intro heq
  rw [heq] at h
  exact absurd h (by decide)

/-- C4: a record whose chain hint matches a chain-table entry's aliases
while that chain lacks an RPC endpoint makes the whole run surface the
distinct pre-loop error `"❌ Missing RPC configuration for: ..."` — an error
different from, and never conflated with, the per-record
`"Chain not configured or not recognized"` that an unrecognized chain hint
receives once the run proceeds (preparation succeeds whenever every
identified chain is configured, and an unidentified record then gets the
per-record error with no RPC call). -/
theorem C4_distinct_errors :
    (∀ cfg env raws (rr : RawRow) k, rr ∈ raws → identify_chain rr.chain = some k →
        (configured_chains cfg).find? (fun kc => kc.1 = k) = none →
        ∃ e, full_run cfg env raws = .error e ∧
          pyStartsWith e "❌ Missing RPC configuration for: " = true ∧
          e ≠ "Chain not configured or not recognized") ∧
    (∀ cfg raws, (∀ rr ∈ raws, ∀ k, identify_chain rr.chain = some k →
          (configured_chains cfg).any (fun kc => kc.1 = k) = true) →
        prepare_chain_column cfg raws = .ok (raws.map fun rr =>
          ⟨rr.address, rr.token, rr.symbol, rr.reported, identify_chain rr.chain⟩)) ∧
    (∀ cfg env i st (r : Row), r.chain_id = none →
        ((processRow cfg env i st r).1).error
            = some "Chain not configured or not recognized" ∧
          (processRow cfg env i st r).2.2 = []) := by
  refine ⟨?_, ?_, ?_⟩
  · intro cfg env raws rr k hrr hid hcfg
    have hk_fm : k ∈ (raws.map (fun rr => identify_chain rr.chain)).filterMap id := by
      rw [List.mem_filterMap]
      exact ⟨identify_chain rr.chain, List.mem_map_of_mem _ hrr, hid⟩
    have hk_u : k ∈ chains_in_data raws :=
      mem_uniqueFirstAux_of k _ [] hk_fm (List.not_mem_nil k)
    have hpred : (!(configured_chains cfg).any (fun kc => kc.1 = k)) = true := by
      rw [Bool.not_eq_true']
      rw [List.any_eq_false]
      intro kc hkc
      have := List.find?_eq_none.mp hcfg kc hkc
      simpa using this
    have hk_m : k ∈ missing_chains cfg raws := List.mem_filter.mpr ⟨hk_u, hpred⟩
    refine ⟨missingMsg cfg raws, ?_, pyStartsWith_append _ _,
      missingMsg_ne_row_error _ (pyStartsWith_append _ _)⟩
    cases hm : missing_chains cfg raws with
    | nil =>
      rw [hm] at hk_m
      exact absurd hk_m (List.not_mem_nil k)
    | cons c cs =>
      simp [full_run, prepare_chain_column, hm]
  · intro cfg raws hconf
    have hm : missing_chains cfg raws = [] := by
      rw [missing_chains, List.filter_eq_nil_iff]
      intro c hc
      obtain ⟨a, ha, haid⟩ := List.mem_filterMap.mp (mem_of_uniqueFirstAux c _ [] hc)
      obtain ⟨rr, hrrm, hrreq⟩ := List.mem_map.mp ha
      have := hconf rr hrrm c (by rw [hrreq]; exact haid)
      simp [this]
    simp [prepare_chain_column, hm]
  · intro cfg env i st r hmiss
    constructor <;> simp [processRow, chainHit, hmiss]

/-- Witness for C4: the concrete `"base"` hint with BASE unconfigured
aborts the run with the distinct message. -/
theorem C4_distinct_errors_witness :
    ∃ e, full_run Fix.cfgCur Fix.steadyEnv [Fix.rawBase] = .error e ∧
      pyStartsWith e "❌ Missing RPC configuration for: " = true ∧
      e ≠ "Chain not configured or not recognized" :=
  C4_distinct_errors.1 Fix.cfgCur Fix.steadyEnv [Fix.rawBase] Fix.rawBase "BASE"
    (List.mem_singleton.mpr rfl) (by rfl) (by rfl)

/-- C5 counterexample: in current mode with a head that advances by one
block between queries, two records on the same chain cause two head queries
and fetch at the distinct heights 100 and 101 within a single run — the
height is neither computed at most once nor shared. -/
theorem C5_counterexample :
    (run Fix.cfgCur Fix.advEnv [Fix.rowGood, Fix.rowGood]).2.2
      = [.blockNumber Fix.rpcA, .getBalance Fix.rpcA "0xabcdef1234" 100,
         .blockNumber Fix.rpcA, .getBalance Fix.rpcA "0xabcdef1234" 101] := by
  rfl

/-- The well-formedness predicate claimed by C7, from the spec's words:
after trimming and lower-casing, the string is `"0x"` followed by exactly 40
hexadecimal characters. -/
def hex40Spec (t : String) : Bool :=
  let s := pyLower (pyStrip t)
  pyStartsWith s "0x" && (s.length == 42) && (s.toList.drop 2).all isHexLower

/-- C7 counterexample: CPython `int(s, 16)` accepts underscore digit-group
separators, so `_is_native` returns `false` on a 42-character `0x` string
whose body is not 40 hexadecimal characters — the claim says any such
string must map to `true`. -/
theorem C7_counterexample :
    _is_native (some "0x11_1111111111111111111111111111111111111") = false ∧
      hex40Spec "0x11_1111111111111111111111111111111111111" = false := by
  exact ⟨rfl, rfl⟩

/-- C7 as amended: `_is_native` is true on `None`, on trimmed/lower-cased
null-like markers, and on everything else except strings that, after
trimming and lower-casing, are `"0x"` plus a 40-character body accepted by
CPython `int(·, 16)` — i.e. hex digits with legally placed underscores; on
those (including all well-formed 42-character hex strings) it is false. -/
theorem C7_amended :
    _is_native none = true ∧
    _is_native (some "") = true ∧ _is_native (some "N/A") = true ∧
    _is_native (some "na") = true ∧ _is_native (some "none") = true ∧
    _is_native (some "NaN") = true ∧ _is_native (some " nan ") = true ∧
    _is_native (some "0x1111111111111111111111111111111111111111") = false ∧
    _is_native (some "0xAbCdEf1234567890aBcDeF1234567890AbCdEf12") = false ∧
    ∀ t, _is_native (some t) = false ↔
      (pyStartsWith (pyLower (pyStrip t)) "0x" = true ∧
        (pyLower (pyStrip t)).length = 42 ∧ pyIntHex16Ok (pyLower (pyStrip t)) = true) := by
  refine ⟨rfl, rfl, rfl, rfl, rfl, rfl, rfl, rfl, rfl, ?_⟩
  intro t
  constructor
  · intro h
    simp only [_is_native] at h
    repeat' split at h
    · simp at h
    · simp at h
    · simp at h
    · simp at h
    · simp_all
  · rintro ⟨hstart, hlen, hhex⟩
    simp only [_is_native]
    repeat' split
    · rename_i h
      exfalso
      simp only [Bool.or_eq_true, decide_eq_true_eq] at h
      rcases h with (((h | h) | h) | h) | h <;> rw [h] at hlen <;>
        exact absurd hlen (by decide)
    · rename_i h
      exfalso
      rw [Bool.not_eq_true'] at h
      exact absurd hstart (by simp [h])
    · rename_i h
      exact absurd hlen h
    · rename_i h
      exfalso
      rw [Bool.not_eq_true'] at h
      exact absurd hhex (by simp [h])
    · rfl

/-- Witness for C7 as amended at a well-formed token address. -/
theorem C7_amended_witness :
    _is_native (some "0x1111111111111111111111111111111111111111") = false :=
  (C7_amended.2.2.2.2.2.2.2.2.2 "0x1111111111111111111111111111111111111111").mpr
    ⟨rfl, rfl, rfl⟩

/-- The chain-identification function claim C8 describes, built from the
spec's words: trim, lower-case, strip spaces and underscores, treat
empty/null-like labels as missing, and return the first configured chain
whose alias set contains the normalized label. -/
def identify_chain_claim (cfg : RunCfg) (chain_value : Cell) : Option String :=
  match chain_value with
  | .na => none
  | .str s =>
    let n := String.mk ((pyLower (pyStrip s)).toList.filter (fun c => c ≠ ' ' && c ≠ '_'))
    if n = "" || n = "n/a" || n = "na" || n = "none" || n = "nan" then none
    else ((configured_chains cfg).find? (fun kc => kc.2.aliases.contains n)).map (·.1)

/-- C8 counterexample: the code does not strip spaces or underscores — on
the label `"arb_1"` the claimed normalization resolves ARB (alias `"arb1"`)
while `identify_chain` returns `None`. -/
theorem C8_counterexample :
    identify_chain (.str "arb_1") = none ∧
      identify_chain_claim Fix.cfgAll (.str "arb_1") = some "ARB" := by
  exact ⟨rfl, rfl⟩

/-- C8 as amended: chain identification normalizes only by trimming and
lower-casing (no space/underscore stripping) and compares the result, by
exact membership and in declaration order, against every `CHAIN_CONFIG`
entry's aliases (configured or not); missing values and empty labels give
`None`, and null-like labels give `None` because they match no alias. -/
theorem C8_amended :
    (∀ s k, identify_chain (.str s) = some k →
        ∃ ci, (k, ci) ∈ CHAIN_CONFIG ∧ pyLower (pyStrip s) ∈ ci.aliases) ∧
    (∀ s, (∀ kc ∈ CHAIN_CONFIG, pyLower (pyStrip s) ∉ kc.2.aliases) →
        identify_chain (.str s) = none) ∧
    identify_chain .na = none ∧
    (∀ s, pyLower (pyStrip s) ∈ (["", "n/a", "na", "none", "nan"] : List String) →
        identify_chain (.str s) = none) ∧
    identify_chain (.str " Arbitrum One ") = some "ARB" ∧
    identify_chain (.str "arb_1") = none := by
  refine ⟨?_, ?_, rfl, ?_, rfl, rfl⟩
  · intro s k h
    simp only [identify_chain] at h
    split at h
    · exact absurd h (by simp)
    · obtain ⟨kc, hfind, hk⟩ := Option.map_eq_some'.mp h
      refine ⟨kc.2, ?_, ?_⟩
      · rw [← hk]
        exact (List.mem_of_find?_eq_some hfind)
      · have := List.find?_some hfind
        simpa [List.contains, List.elem_eq_mem] using this
  · intro s hnone
    simp only [identify_chain]
    split
    · rfl
    · rw [List.find?_eq_none.mpr, Option.map_none']
      intro kc hkc
      simp only [List.contains, List.elem_eq_mem, decide_eq_true_eq]
      exact hnone kc hkc
  · intro s hmem
    by_cases hs : s = ""
    · simp [identify_chain, hs]
    · simp only [identify_chain, hs, if_false]
      simp only [List.mem_cons, List.not_mem_nil, or_false] at hmem
      rcases hmem with h | h | h | h | h <;> rw [h] <;> rfl

/-- Witness for C8 as amended: the soundness component applied at a
resolving label. -/
theorem C8_amended_witness :
    ∃ ci, ("ETH", ci) ∈ CHAIN_CONFIG ∧ pyLower (pyStrip "ETH") ∈ ci.aliases :=
  C8_amended.1 "ETH" "ETH" rfl

/-- C9 evaluated at the failing input: in historical mode with explicit
block 0, `if explicit_blk:` treats 0 as unset — block resolution runs (a
head query occurs) and its result, block 2, not the explicit 0, is the
height the balance is fetched at; with the nonzero explicit block 7,
resolution is skipped and block 7 is used directly. -/
theorem C9_explicit_zero_bug :
    ((run (Fix.cfgHist (some 0)) Fix.steadyEnv [Fix.rowGood]).2.2.any
        (RpcCall.isHeadOn Fix.rpcA) = true) ∧
    ((run (Fix.cfgHist (some 0)) Fix.steadyEnv [Fix.rowGood]).2.2.contains
        (.getBalance Fix.rpcA "0xabcdef1234" 2) = true) ∧
    ((run (Fix.cfgHist (some 7)) Fix.steadyEnv [Fix.rowGood]).2.2
        = [.getBalance Fix.rpcA "0xabcdef1234" 7]) := by
  exact ⟨rfl, rfl, rfl⟩

/-- C10: parsing a reported-balance cell removes every comma and the
surrounding whitespace before numeric conversion (`"1,234.5"` parses to
1234.5 and parsing is invariant under comma removal), a missing (NaN) cell
yields an absent amount, and every unparseable value yields an absent
amount rather than zero or an exception. -/
theorem C10_reported_parsing :
    human_to_decimal (.str "1,234.5") = some (.val (2469 / 2 : ℚ)) ∧
    human_to_decimal .na = none ∧
    (∀ s, human_to_decimal (.str s) = human_to_decimal (.str (removeCommas s))) ∧
    (∀ s, pyFloatParse (pyStrip (removeCommas s)) = none →
      human_to_decimal (.str s) = none) := by
  refine ⟨?_, rfl, ?_, ?_⟩
  · show pyFloatParse "1234.5" = some (.val (2469 / 2 : ℚ))
    have h : pyFloatParse "1234.5"
        = some (.val ((digitsToNat ['1', '2', '3', '4'] : ℚ)
            + (digitsToNat ['5'] : ℚ) / (10 : ℚ) ^ 1)) := rfl
    have d1 : digitsToNat ['1', '2', '3', '4'] = 1234 := rfl
    have d2 : digitsToNat ['5'] = 5 := rfl
    rw [h, d1, d2]
    norm_num
  · intro s
    show pyFloatParse (pyStrip (removeCommas s))
        = pyFloatParse (pyStrip (removeCommas (removeCommas s)))
    have : removeCommas (removeCommas s) = removeCommas s := by
      simp [removeCommas, List.filter_filter]
    rw [this]
  · intro s h
    simpa [human_to_decimal] using h

/-- Witness for C10's unparseable-value component at `"abc"`. -/
theorem C10_reported_parsing_witness :
    human_to_decimal (.str "abc") = none :=
  C10_reported_parsing.2.2.2 "abc" rfl

/-- Whether an RPC call is a head-block-number query (any endpoint). -/
def RpcCall.isHead : RpcCall → Bool
  | .blockNumber _ => true
  | _ => false

/-- Whether an RPC call is a `get_block` fetch. -/
def RpcCall.isGetBlock : RpcCall → Bool
  | .getBlock _ _ => true
  | _ => false

/-- A chain whose head and block queries always succeed. -/
def Chain.total (c : Chain) : Prop :=
  (∀ k, ∃ b, c.blockNumber k = .ok b) ∧ (∀ b, ∃ t, c.blockTs b = .ok t)

/-- The binary-search loop performs `getBlock` calls only. -/
theorem searchLoop_getBlocks (c : Chain) (rpc : String) (target : Nat) :
    ∀ (fuel : Nat) (low high : Int) (cb cd : Nat),
      ((searchLoop c rpc target fuel low high cb cd).2).all RpcCall.isGetBlock = true
  | 0, _, _, _, _ => by simp [searchLoop]
  | fuel + 1, low, high, cb, cd => by
    simp only [searchLoop]
    repeat' split
    all_goals
      simp [RpcCall.isGetBlock, searchLoop_getBlocks c rpc target fuel]

/-- On a total chain the binary-search loop always succeeds. -/
theorem searchLoop_ok (c : Chain) (hts : ∀ b, ∃ t, c.blockTs b = .ok t) (rpc : String)
    (target : Nat) :
    ∀ (fuel : Nat) (low high : Int) (cb cd : Nat),
      ∃ o, (searchLoop c rpc target fuel low high cb cd).1 = .ok o
  | 0, _, _, cb, _ => ⟨.best cb, rfl⟩
  | fuel + 1, low, high, cb, cd => by
    simp only [searchLoop]
    split
    · exact ⟨.best cb, rfl⟩
    · obtain ⟨t, ht⟩ := hts ((low + high) / 2).toNat
      rw [ht]
      simp only []
      repeat' split
      all_goals
        first
          | exact searchLoop_ok c hts rpc target fuel _ _ _ _
          | exact ⟨_, rfl⟩

/-- On a total chain, block resolution succeeds and its trace is the head
query on its endpoint followed by `getBlock` calls only. -/
theorem find_block_ok (c : Chain) (htot : Chain.total c) (rpc : String) (clk target : Nat) :
    (∃ b, (find_block_by_timestamp c rpc clk target).1 = .ok b) ∧
      ∃ rest, (find_block_by_timestamp c rpc clk target).2.2 = .blockNumber rpc :: rest ∧
        rest.all RpcCall.isGetBlock = true := by
  obtain ⟨hhead, hts⟩ := htot
  obtain ⟨latest, hlat⟩ := hhead clk
  obtain ⟨lts, hlts⟩ := hts latest
  obtain ⟨gts, hgts⟩ := hts 0
  simp only [find_block_by_timestamp, hlat, hlts, hgts]
  split
  · exact ⟨⟨latest, rfl⟩, ⟨_, rfl, by simp [RpcCall.isGetBlock]⟩⟩
  · split
    · exact ⟨⟨0, rfl⟩, ⟨_, rfl, by simp [RpcCall.isGetBlock]⟩⟩
    · obtain ⟨o, ho⟩ := searchLoop_ok c hts rpc target 100 0 (latest : Int) latest
        (Nat.dist lts target)
      have hall := searchLoop_getBlocks c rpc target 100 0 (latest : Int) latest
        (Nat.dist lts target)
      rw [ho]
      cases o with
      | exitAt b =>
        exact ⟨⟨b, rfl⟩, ⟨_, rfl, by simp [RpcCall.isGetBlock, hall]⟩⟩
      | best b =>
        obtain ⟨bt, hbt⟩ := hts b
        simp only []
        rw [hbt]
        exact ⟨⟨b, rfl⟩, ⟨_, rfl, by simp [RpcCall.isGetBlock, hall, List.all_append]⟩⟩

/-- `getBlock`-only call lists contain no head query on any endpoint. -/
theorem countP_headOn_of_getBlocks (u : String) (l : List RpcCall)
    (h : l.all RpcCall.isGetBlock = true) : l.countP (RpcCall.isHeadOn u) = 0 := by
  rw [List.countP_eq_zero]
  intro a ha
  have := List.all_eq_true.mp h a ha
  cases a <;> simp_all [RpcCall.isGetBlock, RpcCall.isHeadOn]

/-- A block query carries no fetch height. -/
theorem fetchHeight_of_blockQuery (u : String) (c : RpcCall) (h : c.isBlockQuery = true) :
    c.fetchHeight u = none := by
  cases c <;> simp_all [RpcCall.isBlockQuery, RpcCall.fetchHeight]

/-- Fetch-height of the single native balance call of a record. -/
theorem suffix_heights_getBalance (U A : String) (B : Nat) (u : String) (h : Nat)
    (c : RpcCall) (hc : c ∈ [RpcCall.getBalance U A B]) (hfetch : c.fetchHeight u = some h) :
    U = u ∧ B = h := by
  simp only [List.mem_singleton] at hc
  subst hc
  simp only [RpcCall.fetchHeight] at hfetch
  split at hfetch
  · rename_i hr
    cases hfetch
    exact ⟨hr, rfl⟩
  · exact Option.noConfusion hfetch

/-- Fetch-height of the single failing token balance call of a record. -/
theorem suffix_heights_balanceOf1 (U T A : String) (B : Nat) (u : String) (h : Nat)
    (c : RpcCall) (hc : c ∈ [RpcCall.balanceOf U T A B])
    (hfetch : c.fetchHeight u = some h) : U = u ∧ B = h := by
  simp only [List.mem_singleton] at hc
  subst hc
  simp only [RpcCall.fetchHeight] at hfetch
  split at hfetch
  · rename_i hr
    cases hfetch
    exact ⟨hr, rfl⟩
  · exact Option.noConfusion hfetch

/-- Fetch-height of the token balance plus decimals calls of a record. -/
theorem suffix_heights_balanceOf (U T A : String) (B : Nat) (u : String) (h : Nat)
    (c : RpcCall) (hc : c ∈ [RpcCall.balanceOf U T A B, RpcCall.decimalsCall U T])
    (hfetch : c.fetchHeight u = some h) : U = u ∧ B = h := by
  rcases List.mem_cons.mp hc with hc | hc
  · subst hc
    simp only [RpcCall.fetchHeight] at hfetch
    split at hfetch
    · rename_i hr
      cases hfetch
      exact ⟨hr, rfl⟩
    · exact Option.noConfusion hfetch
  · simp only [List.mem_singleton] at hc
    subst hc
    simp only [RpcCall.fetchHeight] at hfetch
    exact Option.noConfusion hfetch

/-- Interface between a loop iteration and its block step: either the chain
lookup misses (state unchanged, no RPC calls), or the state evolves exactly
as the block step dictates and the remaining calls are this record's
balance/metadata fetches, none of them head queries, every fetch height
being the block the step resolved on the record's endpoint. -/
theorem processRow_shape (cfg : RunCfg) (env : String → Chain) (i : Nat) (st : RunState)
    (r : Row) :
    (chainHit cfg r.chain_id = none ∧ (processRow cfg env i st r).2.1 = st ∧
        (processRow cfg env i st r).2.2 = []) ∨
    (∃ kc suffix, chainHit cfg r.chain_id = some kc ∧
        (processRow cfg env i st r).2.1
          = (blockStep cfg env st ((cfg.rpcOf kc.1).getD "")).2.1 ∧
        (processRow cfg env i st r).2.2
          = (blockStep cfg env st ((cfg.rpcOf kc.1).getD "")).2.2 ++ suffix ∧
        suffix.all (fun c => !RpcCall.isHead c) = true ∧
        (∀ u h c, c ∈ suffix → RpcCall.fetchHeight u c = some h →
            (cfg.rpcOf kc.1).getD "" = u ∧
              (blockStep cfg env st ((cfg.rpcOf kc.1).getD "")).1 = .ok h)) := by
  cases hhit : chainHit cfg r.chain_id with
  | none =>
    left
    refine ⟨rfl, ?_, ?_⟩ <;> simp [processRow, hhit]
  | some kc =>
    right
    refine ⟨kc, ?_⟩
    cases hblk : (blockStep cfg env st ((cfg.rpcOf kc.1).getD "")).1 with
    | error e =>
      exact ⟨[], rfl, by simp [processRow, hhit, hblk], by simp [processRow, hhit, hblk],
        by simp, by simp⟩
    | ok blk =>
      simp only [processRow, hhit, hblk]
      repeat' split
      all_goals
        first
          | (refine ⟨[], trivial, rfl, ?_, ?_, ?_⟩ <;> (simp; done))
          | (refine ⟨_, trivial, rfl, rfl, by simp [RpcCall.isHead], ?_⟩
             intro u h c hc hfetch
             first
               | exact (fun x => ⟨x.1, x.2 ▸ rfl⟩)
                   (suffix_heights_getBalance _ _ _ _ _ _ hc hfetch)
               | exact (fun x => ⟨x.1, x.2 ▸ rfl⟩)
                   (suffix_heights_balanceOf1 _ _ _ _ _ _ _ hc hfetch)
               | exact (fun x => ⟨x.1, x.2 ▸ rfl⟩)
                   (suffix_heights_balanceOf _ _ _ _ _ _ _ hc hfetch))

/-- In historical mode without an explicit block the block step is exactly
the cached resolver at the run's target timestamp. -/
theorem blockStep_hist (cfg : RunCfg) (env : String → Chain) (st : RunState) (u : String)
    (ts' : Nat) (hmode : cfg.mode = .historical ts' none) :
    blockStep cfg env st u = find_block_cached env st u ts' := by
  simp [blockStep, hmode]

/-- A resolver cache hit performs no RPC call and leaves the state alone. -/
theorem find_block_cached_hit (env : String → Chain) (st : RunState) (u : String) (ts' : Nat)
    (b : Nat) (h : st.fcache.lookup (u, ts') = some b) :
    find_block_cached env st u ts' = (.ok b, st, []) := by
  simp [find_block_cached, h]

/-- A resolver cache miss on a total chain: one head query on the endpoint
followed by `getBlock` calls, and the resolved block is cached. -/
theorem find_block_cached_miss (env : String → Chain) (st : RunState) (u : String) (ts' : Nat)
    (htot : Chain.total (env u)) (h : st.fcache.lookup (u, ts') = none) :
    ∃ b rest, (find_block_cached env st u ts').1 = .ok b ∧
      (find_block_cached env st u ts').2.1.fcache = ((u, ts'), b) :: st.fcache ∧
      (find_block_cached env st u ts').2.2 = .blockNumber u :: rest ∧
      rest.all RpcCall.isGetBlock = true := by
  obtain ⟨⟨b, hb⟩, rest, hrest, hall⟩ := find_block_ok (env u) htot u st.clk ts'
  refine ⟨b, rest, ?_, ?_, ?_, hall⟩ <;> simp [find_block_cached, h, hb, hrest]

/-- Call lists free of head queries count no head query on any endpoint. -/
theorem countP_headOn_of_no_head (u : String) (l : List RpcCall)
    (h : l.all (fun c => !RpcCall.isHead c) = true) :
    l.countP (RpcCall.isHeadOn u) = 0 := by
  rw [List.countP_eq_zero]
  intro a ha
  have := List.all_eq_true.mp h a ha
  cases a <;> simp_all [RpcCall.isHead, RpcCall.isHeadOn]

/-- A `getBlock` call carries no fetch height. -/
theorem fetchHeight_of_getBlocks (u : String) (l : List RpcCall)
    (h : l.all RpcCall.isGetBlock = true) :
    ∀ call ∈ l, RpcCall.fetchHeight u call = none := by
  intro call hc
  have := List.all_eq_true.mp h call hc
  cases call <;> simp_all [RpcCall.isGetBlock, RpcCall.fetchHeight]

/-- Keys other than the inserted one look up unchanged. -/
theorem lookup_cons_ne (rpc u : String) (ts' : Nat) (b : Nat)
    (f : List ((String × Nat) × Nat)) (hne : u ≠ rpc) :
    (((u, ts'), b) :: f).lookup (rpc, ts') = f.lookup (rpc, ts') := by
  have hbeq : ((rpc, ts') == (u, ts')) = false := by
    simp [Prod.ext_iff]
    intro hcontra
    exact absurd hcontra.symm hne
  simp [List.lookup, hbeq]

/-- Historical mode, total environment: each endpoint's head is queried at
most once per run, and not at all when the resolution is already cached. -/
theorem runLoop_hist_head (cfg : RunCfg) (env : String → Chain) (ts' : Nat) (rpc : String)
    (hmode : cfg.mode = .historical ts' none) (htot : ∀ u, Chain.total (env u)) :
    ∀ (rows : List Row) (i : Nat) (st : RunState),
      ((runLoop cfg env i st rows).2.2.countP (RpcCall.isHeadOn rpc))
        ≤ (if (st.fcache.lookup (rpc, ts')).isSome then 0 else 1)
  | [], _, _ => by simp [runLoop]
  | r :: rs, i, st => by
    have hsplit : (runLoop cfg env i st (r :: rs)).2.2
        = (processRow cfg env i st r).2.2
          ++ (runLoop cfg env (i + 1) (processRow cfg env i st r).2.1 rs).2.2 := by
      simp [runLoop]
    rw [hsplit, List.countP_append]
    rcases processRow_shape cfg env i st r with ⟨hmiss, hst, htr⟩
      | ⟨kc, suffix, hhit, hst, htr, hall, hhts⟩
    · rw [htr, hst]
      simpa using runLoop_hist_head cfg env ts' rpc hmode htot rs (i + 1) st
    · rw [htr, hst, List.countP_append,
        blockStep_hist cfg env st ((cfg.rpcOf kc.1).getD "") ts' hmode,
        countP_headOn_of_no_head rpc suffix hall]
      cases hlook : st.fcache.lookup (((cfg.rpcOf kc.1).getD ""), ts') with
      | some b =>
        rw [find_block_cached_hit env st _ ts' b hlook]
        simpa using runLoop_hist_head cfg env ts' rpc hmode htot rs (i + 1) st
      | none =>
        obtain ⟨b, rest, hok, hfc, htrace, hrest⟩ :=
          find_block_cached_miss env st _ ts' (htot _) hlook
        rw [htrace, List.countP_cons, countP_headOn_of_getBlocks rpc rest hrest]
        have ih := runLoop_hist_head cfg env ts' rpc hmode htot rs (i + 1)
          (find_block_cached env st ((cfg.rpcOf kc.1).getD "") ts').2.1
        by_cases hu : ((cfg.rpcOf kc.1).getD "") = rpc
        · subst hu
          have hsome : (List.lookup (((cfg.rpcOf kc.1).getD ""), ts')
              (find_block_cached env st ((cfg.rpcOf kc.1).getD "") ts').2.1.fcache).isSome
              = true := by
            rw [hfc]
            simp [List.lookup]
          rw [hsome] at ih
          have ih0 : List.countP (RpcCall.isHeadOn ((cfg.rpcOf kc.1).getD ""))
              (runLoop cfg env (i + 1)
                (find_block_cached env st ((cfg.rpcOf kc.1).getD "") ts').2.1 rs).2.2 = 0 := by
            simpa using ih
          rw [hlook, ih0]
          simp [RpcCall.isHeadOn]
        · have hlk : (find_block_cached env st ((cfg.rpcOf kc.1).getD "") ts').2.1.fcache.lookup
              (rpc, ts') = st.fcache.lookup (rpc, ts') := by
            rw [hfc]
            exact lookup_cons_ne rpc _ ts' b st.fcache hu
          rw [hlk] at ih
          have hhd : RpcCall.isHeadOn rpc (RpcCall.blockNumber ((cfg.rpcOf kc.1).getD ""))
              = false := by
            simp [RpcCall.isHeadOn, hu]
          simp only [hhd, if_false]
          simpa using ih

/-- Historical mode: once a resolution for `(rpc, ts')` is cached, every
later balance fetch on that endpoint reads at the cached height. -/
theorem runLoop_hist_height_cached (cfg : RunCfg) (env : String → Chain) (ts' : Nat)
    (rpc : String) (b0 : Nat) (hmode : cfg.mode = .historical ts' none)
    (htot : ∀ u, Chain.total (env u)) :
    ∀ (rows : List Row) (i : Nat) (st : RunState),
      st.fcache.lookup (rpc, ts') = some b0 →
      ∀ call ∈ (runLoop cfg env i st rows).2.2, ∀ h, call.fetchHeight rpc = some h → h = b0
  | [], _, _ => by simp [runLoop]
  | r :: rs, i, st => by
    intro hlook call hmem h hfetch
    have hsplit : (runLoop cfg env i st (r :: rs)).2.2
        = (processRow cfg env i st r).2.2
          ++ (runLoop cfg env (i + 1) (processRow cfg env i st r).2.1 rs).2.2 := by
      simp [runLoop]
    rw [hsplit, List.mem_append] at hmem
    rcases processRow_shape cfg env i st r with ⟨hmiss, hst, htr⟩
      | ⟨kc, suffix, hhit, hst, htr, hall, hhts⟩
    · rcases hmem with hmem | hmem
      · rw [htr] at hmem
        exact absurd hmem (List.not_mem_nil call)
      · rw [hst] at hmem
        exact runLoop_hist_height_cached cfg env ts' rpc b0 hmode htot rs (i + 1) st hlook
          call hmem h hfetch
    · rw [blockStep_hist cfg env st ((cfg.rpcOf kc.1).getD "") ts' hmode] at hst htr hhts
      cases hulook : st.fcache.lookup (((cfg.rpcOf kc.1).getD ""), ts') with
      | some b' =>
        rw [find_block_cached_hit env st _ ts' b' hulook] at hst htr hhts
        rcases hmem with hmem | hmem
        · rw [htr] at hmem
          simp only [List.nil_append] at hmem
          obtain ⟨hu, hok⟩ := hhts rpc h call hmem hfetch
          subst hu
          rw [hulook] at hlook
          cases hlook
          cases hok
          rfl
        · rw [hst] at hmem
          exact runLoop_hist_height_cached cfg env ts' rpc b0 hmode htot rs (i + 1) st hlook
            call hmem h hfetch
      | none =>
        have hune : ((cfg.rpcOf kc.1).getD "") ≠ rpc := by
          intro hcontra
          rw [hcontra, hlook] at hulook
          cases hulook
        obtain ⟨b, rest, hok, hfc, htrace, hrest⟩ :=
          find_block_cached_miss env st _ ts' (htot _) hulook
        rcases hmem with hmem | hmem
        · rw [htr, List.mem_append] at hmem
          rcases hmem with hmem | hmem
          · rw [htrace] at hmem
            rcases List.mem_cons.mp hmem with hmem | hmem
            · subst hmem
              simp [RpcCall.fetchHeight] at hfetch
            · rw [fetchHeight_of_getBlocks rpc rest hrest call hmem] at hfetch
              exact Option.noConfusion hfetch
          · obtain ⟨hu, _⟩ := hhts rpc h call hmem hfetch
            exact absurd hu hune
        · rw [hst] at hmem
          have hlook' : ((find_block_cached env st ((cfg.rpcOf kc.1).getD "") ts').2.1).fcache.lookup
              (rpc, ts') = some b0 := by
            rw [hfc, lookup_cons_ne rpc _ ts' b st.fcache hune]
            exact hlook
          exact runLoop_hist_height_cached cfg env ts' rpc b0 hmode htot rs (i + 1) _ hlook'
            call hmem h hfetch

/-- Historical mode, total environment: across one run all balance fetches
on a given endpoint read at a single shared height. -/
theorem runLoop_hist_height (cfg : RunCfg) (env : String → Chain) (ts' : Nat) (rpc : String)
    (hmode : cfg.mode = .historical ts' none) (htot : ∀ u, Chain.total (env u)) :
    ∀ (rows : List Row) (i : Nat) (st : RunState),
      ∃ b, ∀ call ∈ (runLoop cfg env i st rows).2.2, ∀ h,
        call.fetchHeight rpc = some h → h = b
  | [], _, _ => ⟨0, by simp [runLoop]⟩
  | r :: rs, i, st => by
    cases hlook : st.fcache.lookup (rpc, ts') with
    | some b0 =>
      exact ⟨b0, runLoop_hist_height_cached cfg env ts' rpc b0 hmode htot (r :: rs) i st hlook⟩
    | none =>
      have hsplit : (runLoop cfg env i st (r :: rs)).2.2
          = (processRow cfg env i st r).2.2
            ++ (runLoop cfg env (i + 1) (processRow cfg env i st r).2.1 rs).2.2 := by
        simp [runLoop]
      rcases processRow_shape cfg env i st r with ⟨hmiss, hst, htr⟩
        | ⟨kc, suffix, hhit, hst, htr, hall, hhts⟩
      · obtain ⟨b, hb⟩ := runLoop_hist_height cfg env ts' rpc hmode htot rs (i + 1)
          (processRow cfg env i st r).2.1
        refine ⟨b, ?_⟩
        intro call hmem h hfetch
        rw [hsplit, List.mem_append] at hmem
        rcases hmem with hmem | hmem
        · rw [htr] at hmem
          exact absurd hmem (List.not_mem_nil call)
        · exact hb call hmem h hfetch
      · rw [blockStep_hist cfg env st ((cfg.rpcOf kc.1).getD "") ts' hmode] at hst htr hhts
        cases hulook : st.fcache.lookup (((cfg.rpcOf kc.1).getD ""), ts') with
        | some b' =>
          have hune : ((cfg.rpcOf kc.1).getD "") ≠ rpc := by
            intro hcontra
            rw [hcontra, hlook] at hulook
            cases hulook
          rw [find_block_cached_hit env st _ ts' b' hulook] at hst htr hhts
          obtain ⟨b, hb⟩ := runLoop_hist_height cfg env ts' rpc hmode htot rs (i + 1)
            (processRow cfg env i st r).2.1
          refine ⟨b, ?_⟩
          intro call hmem h hfetch
          rw [hsplit, List.mem_append] at hmem
          rcases hmem with hmem | hmem
          · rw [htr] at hmem
            simp only [List.nil_append] at hmem
            obtain ⟨hu, _⟩ := hhts rpc h call hmem hfetch
            exact absurd hu hune
          · exact hb call hmem h hfetch
        | none =>
          obtain ⟨b, rest, hok, hfc, htrace, hrest⟩ :=
            find_block_cached_miss env st _ ts' (htot _) hulook
          by_cases hu : ((cfg.rpcOf kc.1).getD "") = rpc
          · refine ⟨b, ?_⟩
            intro call hmem h hfetch
            rw [hsplit, List.mem_append] at hmem
            rcases hmem with hmem | hmem
            · rw [htr, List.mem_append] at hmem
              rcases hmem with hmem | hmem
              · rw [htrace] at hmem
                rcases List.mem_cons.mp hmem with hmem | hmem
                · subst hmem
                  simp [RpcCall.fetchHeight] at hfetch
                · rw [fetchHeight_of_getBlocks rpc rest hrest call hmem] at hfetch
                  exact Option.noConfusion hfetch
              · obtain ⟨_, hokh⟩ := hhts rpc h call hmem hfetch
                rw [hok] at hokh
                cases hokh
                rfl
            · rw [hst] at hmem
              have hlook' : ((find_block_cached env st ((cfg.rpcOf kc.1).getD "") ts').2.1).fcache.lookup
                  (rpc, ts') = some b := by
                rw [hfc, ← hu]
                simp [List.lookup]
              exact runLoop_hist_height_cached cfg env ts' rpc b hmode htot rs (i + 1) _ hlook'
                call hmem h hfetch
          · obtain ⟨bshared, hb⟩ := runLoop_hist_height cfg env ts' rpc hmode htot rs (i + 1)
              (processRow cfg env i st r).2.1
            refine ⟨bshared, ?_⟩
            intro call hmem h hfetch
            rw [hsplit, List.mem_append] at hmem
            rcases hmem with hmem | hmem
            · rw [htr, List.mem_append] at hmem
              rcases hmem with hmem | hmem
              · rw [htrace] at hmem
                rcases List.mem_cons.mp hmem with hmem | hmem
                · subst hmem
                  simp [RpcCall.fetchHeight] at hfetch
                · rw [fetchHeight_of_getBlocks rpc rest hrest call hmem] at hfetch
                  exact Option.noConfusion hfetch
              · obtain ⟨huu, _⟩ := hhts rpc h call hmem hfetch
                exact absurd huu hu
            · exact hb call hmem h hfetch

/-- In current mode a record's processing is independent of the resolution
cache: same result and calls for any carried-over cache, cache passed
through untouched, and exactly one head query when (and only when) the
record's chain is configured. -/
theorem processRow_current (cfg : RunCfg) (env : String → Chain) (i : Nat) (clk : Nat)
    (f f' : List ((String × Nat) × Nat)) (r : Row) (hmode : cfg.mode = .current) :
    (processRow cfg env i ⟨clk, f⟩ r).1 = (processRow cfg env i ⟨clk, f'⟩ r).1 ∧
    (processRow cfg env i ⟨clk, f⟩ r).2.2 = (processRow cfg env i ⟨clk, f'⟩ r).2.2 ∧
    (processRow cfg env i ⟨clk, f⟩ r).2.1.fcache = f ∧
    (processRow cfg env i ⟨clk, f⟩ r).2.1.clk = (processRow cfg env i ⟨clk, f'⟩ r).2.1.clk ∧
    (processRow cfg env i ⟨clk, f⟩ r).2.2.countP RpcCall.isHead
      = (if (chainHit cfg r.chain_id).isSome then 1 else 0) := by
  simp only [processRow, blockStep, hmode]
  cases hhit : chainHit cfg r.chain_id with
  | none => simp
  | some kc =>
    simp only []
    repeat' split
    all_goals simp_all [RpcCall.isHead, List.countP_cons, List.countP_append]

/-- In current mode the whole run is independent of the resolution cache,
never touches it, and performs one fresh head query per configured-chain
record. -/
theorem runLoop_current (cfg : RunCfg) (env : String → Chain) (hmode : cfg.mode = .current) :
    ∀ (rows : List Row) (i clk : Nat) (f f' : List ((String × Nat) × Nat)),
      (runLoop cfg env i ⟨clk, f⟩ rows).1 = (runLoop cfg env i ⟨clk, f'⟩ rows).1 ∧
      (runLoop cfg env i ⟨clk, f⟩ rows).2.2 = (runLoop cfg env i ⟨clk, f'⟩ rows).2.2 ∧
      (runLoop cfg env i ⟨clk, f⟩ rows).2.1.fcache = f ∧
      (runLoop cfg env i ⟨clk, f⟩ rows).2.2.countP RpcCall.isHead
        = rows.countP (fun r => (chainHit cfg r.chain_id).isSome)
  | [], i, clk, f, f' => by simp [runLoop]
  | r :: rs, i, clk, f, f' => by
    obtain ⟨h1, h2, h3, h4, h5⟩ := processRow_current cfg env i clk f f' r hmode
    obtain ⟨_, _, g3, _, _⟩ := processRow_current cfg env i clk f' f r hmode
    have eta1 : (processRow cfg env i ⟨clk, f⟩ r).2.1
        = ⟨(processRow cfg env i ⟨clk, f⟩ r).2.1.clk,
            (processRow cfg env i ⟨clk, f⟩ r).2.1.fcache⟩ := rfl
    have eta2 : (processRow cfg env i ⟨clk, f'⟩ r).2.1
        = ⟨(processRow cfg env i ⟨clk, f'⟩ r).2.1.clk,
            (processRow cfg env i ⟨clk, f'⟩ r).2.1.fcache⟩ := rfl
    have e1 : (processRow cfg env i ⟨clk, f⟩ r).2.1
        = ⟨(processRow cfg env i ⟨clk, f⟩ r).2.1.clk, f⟩ := by
      conv_lhs => rw [eta1]
      rw [h3]
    have e2 : (processRow cfg env i ⟨clk, f'⟩ r).2.1
        = ⟨(processRow cfg env i ⟨clk, f⟩ r).2.1.clk, f'⟩ := by
      conv_lhs => rw [eta2]
      rw [g3, ← h4]
    have ih := runLoop_current cfg env hmode rs (i + 1)
      ((processRow cfg env i ⟨clk, f⟩ r).2.1.clk) f f'
    refine ⟨?_, ?_, ?_, ?_⟩
    · simp only [runLoop]
      rw [h1, e1, e2, ih.1]
    · simp only [runLoop]
      rw [h2, e1, e2, ih.2.1]
    · simp only [runLoop]
      rw [e1]
      exact ih.2.2.1
    · simp only [runLoop]
      rw [List.countP_append, h5, e1, ih.2.2.2, List.countP_cons]
      omega

/-- C5 as amended: in Current mode the head block number is queried fresh
for every record — once per configured-chain record, not at most once per
chain, so heights can differ across records within one run — and the
cross-run resolution cache is neither consulted nor modified (outputs are
independent of it and it is passed through unchanged); in Historical mode
without an explicit block, on a working RPC environment, block resolution
per (endpoint, timestamp) pair is computed at most once per run — at most
one head query per endpoint — and every balance fetch on an endpoint reads
at one shared resolved height. -/
theorem C5_amended :
    (∀ cfg env (clk : Nat) f f' rows, cfg.mode = .current →
        (runFrom cfg env ⟨clk, f⟩ rows).1 = (runFrom cfg env ⟨clk, f'⟩ rows).1 ∧
        (runFrom cfg env ⟨clk, f⟩ rows).2.2 = (runFrom cfg env ⟨clk, f'⟩ rows).2.2 ∧
        (runFrom cfg env ⟨clk, f⟩ rows).2.1.fcache = f ∧
        (runFrom cfg env ⟨clk, f⟩ rows).2.2.countP RpcCall.isHead
          = rows.countP (fun r => (chainHit cfg r.chain_id).isSome)) ∧
    (∀ cfg env ts' st rows rpc, cfg.mode = .historical ts' none →
        (∀ u, Chain.total (env u)) →
        (runFrom cfg env st rows).2.2.countP (RpcCall.isHeadOn rpc) ≤ 1 ∧
        ∃ b, ∀ call ∈ (runFrom cfg env st rows).2.2, ∀ h,
          call.fetchHeight rpc = some h → h = b) := by
  constructor
  · intro cfg env clk f f' rows hmode
    exact runLoop_current cfg env hmode rows 0 clk f f'
  · intro cfg env ts' st rows rpc hmode htot
    constructor
    · exact le_trans (runLoop_hist_head cfg env ts' rpc hmode htot rows 0 st)
        (by split <;> omega)
    · exact runLoop_hist_height cfg env ts' rpc hmode htot rows 0 st

/-- Witness for C5 as amended: cache-independence of a current-mode run and
the one-head-query bound of a historical run, at concrete fixtures. -/
theorem C5_amended_witness :
    ((runFrom Fix.cfgCur Fix.advEnv ⟨0, [((Fix.rpcA, 230), 3)]⟩ [Fix.rowGood]).1
        = (runFrom Fix.cfgCur Fix.advEnv ⟨0, []⟩ [Fix.rowGood]).1) ∧
    ((runFrom (Fix.cfgHist none) Fix.steadyEnv ⟨0, []⟩ [Fix.rowGood]).2.2.countP
        (RpcCall.isHeadOn Fix.rpcA) ≤ 1) :=
  ⟨(C5_amended.1 Fix.cfgCur Fix.advEnv 0 [((Fix.rpcA, 230), 3)] [] [Fix.rowGood] rfl).1,
   (C5_amended.2 (Fix.cfgHist none) Fix.steadyEnv 230 ⟨0, []⟩ [Fix.rowGood] Fix.rpcA rfl
      (fun _ => ⟨fun _ => ⟨5, rfl⟩, fun b => ⟨100 * b, rfl⟩⟩)).1⟩

/-- Pure mirror of the binary-search loop over a total timestamp function,
used to reason about `find_block_by_timestamp` on failure-free chains. -/
def searchLoopP (ts : Nat → Nat) (target : Nat) :
    Nat → Int → Int → Nat → Nat → SearchOutcome
  | 0, _, _, cb, _ => .best cb
  | fuel + 1, low, high, cb, cd =>
    if low > high then .best cb
    else
      let midI := (low + high) / 2
      let mid := midI.toNat
      let bts := ts mid
      let d := Nat.dist bts target
      let cb' := if d < cd then mid else cb
      let cd' := if d < cd then d else cd
      if d < 15 then .exitAt mid
      else if bts < target then searchLoopP ts target fuel (midI + 1) high cb' cd'
      else if bts > target then searchLoopP ts target fuel low (midI - 1) cb' cd'
      else .exitAt mid

/-- A failure-free chain with timestamps `ts` and a fixed head `H` (no
balance data; only block resolution is exercised on it). -/
def tsChain (ts : Nat → Nat) (H : Nat) : Chain :=
  { blockNumber := fun _ => .ok H
    blockTs := fun b => .ok (ts b)
    nativeWei := fun _ _ => .ok 0
    tokenRaw := fun _ _ _ => none
    decimalsOf := fun _ => none }

/-- On a failure-free chain the effectful loop computes the pure mirror. -/
theorem searchLoop_tsChain (ts : Nat → Nat) (H : Nat) (rpc : String) (target : Nat) :
    ∀ (fuel : Nat) (low high : Int) (cb cd : Nat),
      (searchLoop (tsChain ts H) rpc target fuel low high cb cd).1
        = .ok (searchLoopP ts target fuel low high cb cd)
  | 0, _, _, _, _ => rfl
  | fuel + 1, low, high, cb, cd => by
    rw [searchLoop, searchLoopP]
    split
    · rfl
    · simp only [tsChain]
      split
      · rfl
      · split
        · exact searchLoop_tsChain ts H rpc target fuel _ _ _ _
        · split
          · exact searchLoop_tsChain ts H rpc target fuel _ _ _ _
          · rfl

/-- On a failure-free chain, a resolution whose target sits between the
genesis and head timestamps and whose search ends in the in-loop
`return mid` returns exactly that block. -/
theorem find_block_tsChain_exit (ts : Nat → Nat) (H : Nat) (rpc : String) (clk t b : Nat)
    (hg : ts 0 ≤ t) (hh : t < ts H)
    (hx : searchLoopP ts t 100 0 H H (Nat.dist (ts H) t) = .exitAt b) :
    (find_block_by_timestamp (tsChain ts H) rpc clk t).1 = .ok b := by
  have hloop := searchLoop_tsChain ts H rpc t 100 0 (H : Int) H (Nat.dist (ts H) t)
  rw [hx] at hloop
  rw [find_block_by_timestamp]
  simp only [show (tsChain ts H).blockNumber clk = .ok H from rfl,
    show (tsChain ts H).blockTs H = .ok (ts H) from rfl,
    show (tsChain ts H).blockTs 0 = .ok (ts 0) from rfl]
  rw [if_neg (by omega)]
  rw [if_neg (by omega)]
  rw [hloop]

/-- The timestamps of the C6 counterexample chain: genesis at 0, blocks 1
and 2 both at 30 (a closing plateau; nondecreasing). -/
def c6ts : Nat → Nat := fun b => if b = 0 then 0 else 30

/-- C6 counterexample: on the chain with timestamps [0, 30, 30] (head block
2), targets 15 < 16 both lie strictly between the genesis and head
timestamps, yet resolution returns block 2 for target 15 (the initial
head-closest candidate survives all non-strict improvements) and block 1
for target 16 (15-second early exit) — block(t1) > block(t2). -/
theorem C6_counterexample :
    (∀ i j : Nat, i ≤ j → c6ts i ≤ c6ts j) ∧
    (c6ts 0 < 15 ∧ 15 < 16 ∧ 16 < c6ts 2) ∧
    (find_block_by_timestamp (tsChain c6ts 2) "rpc" 0 15).1 = .ok 2 ∧
    (find_block_by_timestamp (tsChain c6ts 2) "rpc" 0 16).1 = .ok 1 := by
  refine ⟨?_, by decide, rfl, rfl⟩
  intro i j hij
  simp only [c6ts]
  split <;> split <;> omega

/-- An in-loop `return mid` result lies inside the searched range. -/
theorem searchLoopP_exit_bounds (ts : Nat → Nat) (t : Nat) :
    ∀ (fuel : Nat) (low high : Int) (cb cd : Nat) (b : Nat),
      0 ≤ low → searchLoopP ts t fuel low high cb cd = .exitAt b →
      low ≤ (b : Int) ∧ (b : Int) ≤ high
  | 0, low, high, cb, cd, b => by
    intro _ h
    exact absurd h (by simp [searchLoopP])
  | fuel + 1, low, high, cb, cd, b => by
    intro hlow h
    rw [searchLoopP] at h
    split at h
    · exact absurd h (by simp)
    · rename_i hle
      simp only [] at h
      split at h
      · cases h
        rw [Int.toNat_of_nonneg (by omega)]
        omega
      · split at h
        · have := searchLoopP_exit_bounds ts t fuel ((low + high) / 2 + 1) high _ _ b
            (by omega) h
          omega
        · split at h
          · have := searchLoopP_exit_bounds ts t fuel low ((low + high) / 2 - 1) _ _ b
              hlow h
            omega
          · cases h
            rw [Int.toNat_of_nonneg (by omega)]
            omega

/-- Early-exit monotonicity of the binary search: from one shared range, two
targets `t1 < t2` whose searches both end in the in-loop `return mid`
produce ordered block numbers (the closest-candidate state is irrelevant to
exit results). -/
theorem searchLoopP_exit_mono (ts : Nat → Nat) (t1 t2 : Nat) (h12 : t1 < t2) :
    ∀ (fuel : Nat) (low high : Int) (cb1 cd1 cb2 cd2 b1 b2 : Nat),
      0 ≤ low →
      searchLoopP ts t1 fuel low high cb1 cd1 = .exitAt b1 →
      searchLoopP ts t2 fuel low high cb2 cd2 = .exitAt b2 →
      b1 ≤ b2
  | 0, low, high, cb1, cd1, cb2, cd2, b1, b2 => by
    intro _ h1 _
    exact absurd h1 (by simp [searchLoopP])
  | fuel + 1, low, high, cb1, cd1, cb2, cd2, b1, b2 => by
    intro hlow h1 h2
    rw [searchLoopP] at h1 h2
    split at h1
    · exact absurd h1 (by simp)
    · rename_i hle
      rw [if_neg hle] at h2
      simp only [] at h1 h2
      split at h1
      · rename_i hd1
        cases h1
        split at h2
        · cases h2
          exact le_refl _
        · rename_i hd2
          split at h2
          · rename_i hlt2
            have hb := searchLoopP_exit_bounds ts t2 fuel ((low + high) / 2 + 1) high _ _ b2
              (by omega) h2
            omega
          · split at h2
            · rename_i hgt2
              exfalso
              simp only [Nat.dist] at hd1 hd2
              omega
            · rename_i hlt2 hgt2
              exfalso
              simp only [Nat.dist] at hd2
              omega
      · rename_i hd1
        split at h1
        · rename_i hlt1
          split at h2
          · rename_i hd2
            exfalso
            simp only [Nat.dist] at hd1 hd2
            omega
          · rename_i hd2
            split at h2
            · exact searchLoopP_exit_mono ts t1 t2 h12 fuel ((low + high) / 2 + 1) high
                _ _ _ _ b1 b2 (by omega) h1 h2
            · split at h2
              · rename_i hlt2 hgt2
                exfalso
                omega
              · rename_i hlt2 hgt2
                exfalso
                omega
        · rename_i hnlt1
          split at h1
          · rename_i hgt1
            split at h2
            · rename_i hd2
              cases h2
              have hb := searchLoopP_exit_bounds ts t1 fuel low ((low + high) / 2 - 1) _ _ b1
                hlow h1
              omega
            · rename_i hd2
              split at h2
              · rename_i hlt2
                have hb1 := searchLoopP_exit_bounds ts t1 fuel low ((low + high) / 2 - 1) _ _ b1
                  hlow h1
                have hb2 := searchLoopP_exit_bounds ts t2 fuel ((low + high) / 2 + 1) high _ _ b2
                  (by omega) h2
                omega
              · split at h2
                · exact searchLoopP_exit_mono ts t1 t2 h12 fuel low ((low + high) / 2 - 1)
                    _ _ _ _ b1 b2 hlow h1 h2
                · rename_i hlt2 hgt2
                  exfalso
                  simp only [Nat.dist] at hd2
                  omega
          · rename_i hgt1
            exfalso
            simp only [Nat.dist] at hd1
            omega

/-- C6 as amended: on a failure-free chain with nondecreasing block
timestamps, for targets t1 < t2 both strictly between the genesis and head
timestamps, whenever both resolutions terminate via the in-loop
`return mid` (the 15-second early exit), the resolved block numbers satisfy
block(t1) ≤ block(t2); without that proviso the closest-candidate fallback
can return a larger block for the earlier target (see the
counterexample). -/
theorem C6_amended (ts : Nat → Nat) (H : Nat) (rpc : String) (clk : Nat)
    (hmono : ∀ i j : Nat, i ≤ j → ts i ≤ ts j)
    (t1 t2 b1 b2 : Nat) (h12 : t1 < t2)
    (h1g : ts 0 < t1) (h2h : t2 < ts H)
    (hx1 : searchLoopP ts t1 100 0 H H (Nat.dist (ts H) t1) = .exitAt b1)
    (hx2 : searchLoopP ts t2 100 0 H H (Nat.dist (ts H) t2) = .exitAt b2) :
    (find_block_by_timestamp (tsChain ts H) rpc clk t1).1 = .ok b1 ∧
    (find_block_by_timestamp (tsChain ts H) rpc clk t2).1 = .ok b2 ∧
    b1 ≤ b2 := by
  have h1h : t1 < ts H := lt_trans h12 h2h
  have h2g : ts 0 ≤ t2 := le_of_lt (lt_trans h1g h12)
  exact ⟨find_block_tsChain_exit ts H rpc clk t1 b1 (le_of_lt h1g) h1h hx1,
    find_block_tsChain_exit ts H rpc clk t2 b2 h2g h2h hx2,
    searchLoopP_exit_mono ts t1 t2 h12 100 0 (H : Int) _ _ _ _ b1 b2 (le_refl 0) hx1 hx2⟩

/-- Witness for C6 as amended: a ten-second-cadence chain where targets 34
and 47 both early-exit. -/
theorem C6_amended_witness :
    (find_block_by_timestamp (tsChain (fun b => 10 * b) 8) "rpc" 0 34).1 = .ok 4 ∧
    (find_block_by_timestamp (tsChain (fun b => 10 * b) 8) "rpc" 0 47).1 = .ok 4 ∧
    (4 : Nat) ≤ 4 :=
  C6_amended (fun b => 10 * b) 8 "rpc" 0
    (fun i j hij => by simpa using Nat.mul_le_mul_left 10 hij) 34 47 4 4
    (by omega) (by decide) (by decide) rfl rfl

end BalanceCheck













